import Mathlib

/-!
Shallow embedding of the typewriter web app (wsk-lab/typewriter).

Sources embedded:
* `src/types.ts` — `PaperCardData`, `TypewriterState`, `Coordinates`.
* `src/unnamed/part_000` (App) — card collection state, machine drag
  handlers, `handlePrint`, `handleUpdateCard`, `handleDeleteCard`,
  `handleClearAll`, `handleFocus`.
* `src/unnamed/part_001` (DraggablePaper) — the typing-reveal effect
  (`typeNextChar`) and the card drag handlers.
* `src/unnamed/part_002` (geminiService) — `polishTextToVintage`.
* `src/components/TypewriterConsole.tsx` — `handlePolish`, `handlePrint`
  (console-side guard) and the buttons' `disabled` conditions.

Modelling conventions: pixel coordinates and delays are rationals (JS
numbers used only through +, -, *, /); `Math.random()` results are
rational parameters `r` with `0 ≤ r < 1`; `crypto.randomUUID()` and
`Date.now()` are parameters; browser collaborators (window.confirm, the
Gemini client, the audio cue) are parameters or sum-type inputs. React
state updates are modelled as immediate functional updates, and the
timer-driven typing chain as iteration of a step function.
-/

/-- `Coordinates` from src/types.ts: `{ x: number; y: number }`. -/
structure Coordinates where
  x : ℚ
  y : ℚ
deriving DecidableEq, Repr

/-- `PaperCardData` from src/types.ts. -/
structure PaperCardData where
  id : String
  text : String
  x : ℚ
  y : ℚ
  rotation : ℚ
  timestamp : ℤ
  isTyping : Bool
deriving DecidableEq, Repr

/-- `TypewriterState` from src/types.ts. -/
inductive TypewriterState where
  | IDLE
  | THINKING
  | PRINTING
deriving DecidableEq, Repr

/-! ## Typing Revealer (DraggablePaper, part_001 lines 32-76)

The effect keeps `displayedText` (component state, here a `List Char`),
`textIndex` (a ref) and reads the card's `isTyping` flag.  Each timer
tick runs `typeNextChar`: while `textIndex < text.length` it appends
`text.charAt(textIndex)` and increments the index, scheduling the next
tick; otherwise it fires `onUpdate(id, { isTyping: false })` and stops.
`str.charAt(i)` is the one-character slice `(drop i).take 1` (empty when
out of range), which the model uses verbatim. -/

/-- The mutable state of the typing effect for one card. -/
structure TypingState where
  displayed : List Char
  textIndex : Nat
  isTyping : Bool
deriving DecidableEq, Repr

/-- One timer tick of the reveal loop (`typeNextChar`, part_001 lines
37-64).  When the card is no longer typing no tick is scheduled, so the
state is unchanged. -/
def typeNextChar (text : List Char) (s : TypingState) : TypingState :=
  if s.isTyping then
    if s.textIndex < text.length then
      { displayed := s.displayed ++ (text.drop s.textIndex).take 1
        textIndex := s.textIndex + 1
        isTyping := true }
    else
      { s with isTyping := false }
  else s

/-- The state after `k` ticks, starting from the effect's reset
(`setDisplayedText('')`, `textIndex.current = 0`, part_001 lines 34-35)
on a card created with `isTyping: true`. -/
def typeRun (text : List Char) : Nat → TypingState
  | 0 => { displayed := [], textIndex := 0, isTyping := true }
  | k + 1 => typeNextChar text (typeRun text k)

/-- While `k ≤ text.length`, tick `k` has revealed exactly the first `k`
characters and the card is still typing. -/
lemma typeRun_of_le (text : List Char) :
    ∀ k, k ≤ text.length →
      typeRun text k = { displayed := text.take k, textIndex := k, isTyping := true } := by
  intro k
  induction k with
  | zero => intro _; simp [typeRun]
  | succ k ih =>
    intro hk
    have hk' : k < text.length := Nat.lt_of_succ_le hk
    rw [typeRun, ih (Nat.le_of_lt hk'), typeNextChar]
    simp only [if_pos rfl, if_pos hk']
    have : text.take (k + 1) = text.take k ++ (text.drop k).take 1 := List.take_add text k 1
    simp [this]

/-- The tick after the last character flips `isTyping` to `false` and
leaves the fully revealed text in place. -/
lemma typeRun_succ_length (text : List Char) :
    typeRun text (text.length + 1)
      = { displayed := text, textIndex := text.length, isTyping := false } := by
  rw [typeRun, typeRun_of_le text text.length (Nat.le_refl _), typeNextChar]
  simp

/-- After completion the state never changes again: no further reveal
steps occur. -/
lemma typeRun_stable (text : List Char) :
    ∀ j, typeRun text (text.length + 1 + j) = typeRun text (text.length + 1) := by
  intro j
  induction j with
  | zero => rfl
  | succ j ih =>
    have : text.length + 1 + (j + 1) = (text.length + 1 + j) + 1 := by omega
    rw [this, typeRun, ih, typeRun_succ_length, typeNextChar]
    simp

/-! ## Cadence policy (part_001 lines 42-58)

`typeNextChar` schedules the next tick after
`Math.random() * variance + minDelay` milliseconds, with bounds chosen
from the total text length. -/

/-- The `(minDelay, variance)` pair picked in part_001 lines 46-56. -/
def delayBounds (length : Nat) : ℚ × ℚ :=
  if length > 150 then (5, 15)
  else if length > 50 then (15, 25)
  else (30, 50)

/-- `Math.random() * variance + minDelay` (part_001 line 58), with the
random sample `r` passed in. -/
def typingDelay (length : Nat) (r : ℚ) : ℚ :=
  r * (delayBounds length).2 + (delayBounds length).1

/-! ## Card creation (App `handlePrint`, part_000 lines 113-139, and
console `handlePrint`, TypewriterConsole.tsx lines 76-81)

`DEFAULT_CARD_WIDTH` is imported from `./constants`, a module not
present in the sources; it stays a parameter (its value never affects
the claims below).  `crypto.randomUUID()`, `Date.now()`,
`Math.random()` and `window.innerWidth` are parameters. -/

/-- App's `handlePrint` (part_000 lines 113-139): builds the new card
and appends it to the collection. -/
def handlePrint (defaultCardWidth innerWidth : ℚ) (machinePos : Coordinates)
    (freshId : String) (now : ℤ) (r : ℚ) (text : String)
    (cards : List PaperCardData) : List PaperCardData :=
  let machineWidth : ℚ := if innerWidth < 768 then 350 else 440
  let machineCenterX := machinePos.x + machineWidth / 2
  let centerX := machineCenterX - defaultCardWidth / 2
  let targetY := machinePos.y - 180
  let newCard : PaperCardData :=
    { id := freshId, text := text, x := centerX, y := targetY
      rotation := r * 4 - 2, timestamp := now, isTyping := true }
  cards ++ [newCard]

/-- JS `String.prototype.trim`: strips whitespace from both ends.
(Lean's own `String.trim` is defined through `Substring` well-founded
recursion, which the kernel cannot evaluate on concrete inputs, so the
same whitespace stripping is defined directly on the character list.) -/
def strTrim (s : String) : String :=
  ⟨((s.data.dropWhile Char.isWhitespace).reverse.dropWhile Char.isWhitespace).reverse⟩

/-- Console `handlePrint` (TypewriterConsole.tsx lines 76-81): rejects
blank input, otherwise plays the audio cue (a collaborator, no state),
calls `onPrint` (App's `handlePrint`) and clears the buffer.  Returns
the new collection and the new input buffer. -/
def consolePrint (defaultCardWidth innerWidth : ℚ) (machinePos : Coordinates)
    (freshId : String) (now : ℤ) (r : ℚ) (input : String)
    (cards : List PaperCardData) : List PaperCardData × String :=
  if strTrim input = "" then (cards, input)
  else (handlePrint defaultCardWidth innerWidth machinePos freshId now r input cards, "")

/-! ## Drag handlers

A pointer-down event carries client coordinates and whether
`e.target.closest('button, textarea, input')` finds an interactive
control (`targetInteractive`).  The machine handlers (part_000) read
that; the card handlers (part_001) never look at `e.target`. -/

/-- A mouse/touch point event as the handlers consume it. -/
structure PointerEvent where
  clientX : ℚ
  clientY : ℚ
  targetInteractive : Bool
deriving DecidableEq, Repr

/-- Machine drag state (part_000 lines 19-20). -/
structure MachineDrag where
  isDraggingMachine : Bool
  machineDragOffset : Coordinates
deriving DecidableEq, Repr

/-- `handleMachineMouseDown` (part_000 lines 32-44): a pointer-down on a
nested button/textarea/input is a no-op; otherwise it starts the drag
and records `client - machinePos`.  `handleMachineTouchStart` (lines
60-72) computes the same from `e.touches[0]`. -/
def handleMachineMouseDown (e : PointerEvent) (machinePos : Coordinates)
    (s : MachineDrag) : MachineDrag :=
  if e.targetInteractive then s
  else
    { isDraggingMachine := true
      machineDragOffset := { x := e.clientX - machinePos.x, y := e.clientY - machinePos.y } }

/-- App's `handleMouseMove` (part_000 lines 46-53): only moves the
machine while a drag is active.  `handleTouchMove` (lines 74-85) is the
same computation from `e.touches[0]`. -/
def machineMouseMove (e : PointerEvent) (s : MachineDrag)
    (machinePos : Coordinates) : Coordinates :=
  if s.isDraggingMachine then
    { x := e.clientX - s.machineDragOffset.x, y := e.clientY - s.machineDragOffset.y }
  else machinePos

/-- Card drag state (part_001 lines 23-24). -/
structure CardDrag where
  isDragging : Bool
  dragOffset : Coordinates
deriving DecidableEq, Repr

/-- DraggablePaper's `handleMouseDown` (part_001 lines 79-87): calls
`onFocus`, then unconditionally starts the drag and records
`client - data position` — the event's target is never inspected.
`handleTouchStart` (lines 103-112) is identical from `e.touches[0]`. -/
def cardMouseDown (e : PointerEvent) (data : PaperCardData) : CardDrag :=
  { isDragging := true
    dragOffset := { x := e.clientX - data.x, y := e.clientY - data.y } }

/-- DraggablePaper's `handleMouseMove` (part_001 lines 89-96): while
dragging, `onUpdate` moves the card to `client - dragOffset`; otherwise
the position is untouched. -/
def cardMouseMove (e : PointerEvent) (s : CardDrag)
    (pos : Coordinates) : Coordinates :=
  if s.isDragging then
    { x := e.clientX - s.dragOffset.x, y := e.clientY - s.dragOffset.y }
  else pos

/-! ## Card collection operations (part_000) -/

/-- App-level state: the card collection and the stacking counter
(part_000 lines 8-9; `topZIndex` starts at 10). -/
structure AppState where
  cards : List PaperCardData
  topZIndex : ℤ
deriving DecidableEq, Repr

/-- `handleUpdateCard` (part_000 lines 141-143), with the partial update
given as a whole-card transformer applied to the matching card. -/
def handleUpdateCard (id : String) (updates : PaperCardData → PaperCardData)
    (cards : List PaperCardData) : List PaperCardData :=
  cards.map fun card => if card.id = id then updates card else card

/-- `handleDeleteCard` (part_000 lines 145-147). -/
def handleDeleteCard (id : String) (cards : List PaperCardData) : List PaperCardData :=
  cards.filter fun card => card.id ≠ id

/-- `handleClearAll` (part_000 lines 149-153): `window.confirm` is the
confirmation collaborator, passed as the Boolean `confirmed`. -/
def handleClearAll (confirmed : Bool) (cards : List PaperCardData) : List PaperCardData :=
  if confirmed then [] else cards

/-- `handleFocus` (part_000 lines 155-170).  `setTopZIndex` increments
the counter unconditionally; its nested `setCards` maps each card to
`{ ...c }` (a value-identical copy) when the id matches.  The outer
`setCards` then moves the found card to the end, or leaves the list
untouched when no card has the id. -/
def handleFocus (id : String) (st : AppState) : AppState :=
  let topZ := st.topZIndex + 1
  let cards1 := st.cards.map fun c => if c.id = id then c else c
  let cards2 :=
    match cards1.find? (fun c => c.id = id) with
    | none => cards1
    | some card => (cards1.filter fun c => c.id ≠ id) ++ [card]
  { cards := cards2, topZIndex := topZ }

/-! ## Rewrite service (part_002) and console rewrite
(TypewriterConsole.tsx lines 63-81, 161-204)

`polishTextToVintage` wraps everything in try/catch: a missing
`process.env.API_KEY` makes `getClient` throw (caught), the
`generateContent` round trip may fail (caught) or return a response
whose `.text` is absent or empty (`response.text || inputText`). -/

/-- Outcome of the `generateContent` round trip: a thrown transport
error, or a response whose `.text` field may be absent. -/
inductive GenAiOutcome where
  | threw
  | responded (text : Option String)
deriving DecidableEq, Repr

/-- `polishTextToVintage` (part_002 lines 11-28), as a function of the
environment credential, the round-trip outcome and the input text. -/
def polishTextToVintage (apiKey : Option String) (outcome : GenAiOutcome)
    (inputText : String) : String :=
  match apiKey with
  | none => inputText
  | some _ =>
    match outcome with
    | .threw => inputText
    | .responded none => inputText
    | .responded (some t) => if t = "" then inputText else t

/-- The console widget's local state (TypewriterConsole.tsx lines
64-65). -/
structure ConsoleState where
  input : String
  state : TypewriterState
deriving DecidableEq, Repr

/-- The `disabled` condition on the Magic (and Print) buttons,
TypewriterConsole.tsx lines 167 and 196:
`state !== TypewriterState.IDLE || !input.trim()`. -/
def polishDisabled (s : ConsoleState) : Bool :=
  s.state ≠ TypewriterState.IDLE || strTrim s.input = ""

/-- `handlePolish` (TypewriterConsole.tsx lines 67-74) run to
completion: the trim guard, then the collaborator call and the buffer
replacement, ending back in IDLE.  The Boolean reports whether the
collaborator was invoked. -/
def handlePolish (collab : String → String) (s : ConsoleState) : ConsoleState × Bool :=
  if strTrim s.input = "" then (s, false)
  else ({ input := collab s.input, state := TypewriterState.IDLE }, true)

/-- A user click on the Magic button: a disabled button fires no click
handler, so `handlePolish` runs only when `polishDisabled` is false. -/
def clickPolish (collab : String → String) (s : ConsoleState) : ConsoleState × Bool :=
  if polishDisabled s then (s, false) else handlePolish collab s

/-! ## Claim theorems -/

/-- C1: for every non-empty (non-whitespace-only) input text, `submit`
(console `handlePrint` delegating to App `handlePrint`) appends exactly
one new card whose text is the submitted text, and once the reveal run
has flipped the animating flag to false the displayed text equals the
submitted text character for character. -/
theorem submit_roundtrip (input : String) (hinput : strTrim input ≠ "")
    (dw iw : ℚ) (pos : Coordinates) (freshId : String) (now : ℤ) (r : ℚ)
    (cards : List PaperCardData) :
    ∃ c : PaperCardData,
      (consolePrint dw iw pos freshId now r input cards).1 = cards ++ [c] ∧
      c.text = input ∧ c.isTyping = true ∧
      (typeRun input.toList (input.toList.length + 1)).isTyping = false ∧
      (typeRun input.toList (input.toList.length + 1)).displayed = input.toList := by
  simp only [consolePrint, if_neg hinput, handlePrint]
  exact ⟨_, rfl, rfl, rfl,
    by rw [typeRun_succ_length], by rw [typeRun_succ_length]⟩

/-- Witness for C1 at the concrete submission "hi". -/
theorem submit_roundtrip_witness :
    strTrim "hi" ≠ "" ∧
    ∃ c : PaperCardData,
      (consolePrint 280 1024 { x := 0, y := 0 } "a" 0 0 "hi" []).1 = [] ++ [c] ∧
      c.text = "hi" ∧ c.isTyping = true ∧
      (typeRun "hi".toList ("hi".toList.length + 1)).isTyping = false ∧
      (typeRun "hi".toList ("hi".toList.length + 1)).displayed = "hi".toList :=
  ⟨by decide, submit_roundtrip "hi" (by decide) 280 1024 { x := 0, y := 0 } "a" 0 0 []⟩

/-- C2: during the reveal run the displayed text is always the prefix
`take (min k length)` of the full text; it starts empty, each reveal
step while unfinished appends exactly the next character (length grows
by one), and at step `length` it equals the full text. -/
theorem reveal_prefix_growth (text : List Char) :
    (typeRun text 0).displayed = [] ∧
    (∀ k, (typeRun text k).displayed = text.take (min k text.length)) ∧
    (∀ j, j < text.length →
      (typeRun text (j + 1)).displayed
          = (typeRun text j).displayed ++ (text.drop j).take 1 ∧
      ((typeRun text (j + 1)).displayed).length
          = ((typeRun text j).displayed).length + 1) ∧
    (typeRun text text.length).displayed = text := by
  refine ⟨rfl, ?_, ?_, ?_⟩
  · intro k
    rcases le_or_lt k text.length with hk | hk
    · rw [typeRun_of_le text k hk]
      simp [Nat.min_eq_left hk]
    · obtain ⟨j, rfl⟩ : ∃ j, k = text.length + 1 + j :=
        ⟨k - (text.length + 1), by omega⟩
      rw [typeRun_stable, typeRun_succ_length]
      simp [Nat.min_eq_right (by omega : text.length ≤ text.length + 1 + j)]
  · intro j hj
    rw [typeRun_of_le text (j + 1) hj, typeRun_of_le text j (Nat.le_of_lt hj)]
    constructor
    · exact List.take_add text j 1
    · simp [List.length_take]
      omega
  · rw [typeRun_of_le text text.length (Nat.le_refl _)]
    simp

/-- Witness for C2 on the concrete text "hi": step 1 extends the empty
prefix by exactly the first character. -/
theorem reveal_prefix_growth_witness :
    (0 < (['h', 'i'] : List Char).length) ∧
    ((typeRun ['h', 'i'] (0 + 1)).displayed
        = (typeRun ['h', 'i'] 0).displayed ++ ((['h', 'i'] : List Char).drop 0).take 1 ∧
      ((typeRun ['h', 'i'] (0 + 1)).displayed).length
        = ((typeRun ['h', 'i'] 0).displayed).length + 1) :=
  ⟨by decide, (reveal_prefix_growth ['h', 'i']).2.2.1 0 (by decide)⟩

/-- C3 counterexample: a pointer-down whose original target is an
interactive control, delivered to a card root, does begin a drag
session, and the next pointer move changes the card's position — the
guard exists only in the machine handlers, not in DraggablePaper. -/
theorem card_interactive_target_still_drags :
    (PointerEvent.mk 5 5 true).targetInteractive = true ∧
    (cardMouseDown (PointerEvent.mk 5 5 true)
        (PaperCardData.mk "c" "t" 0 0 0 0 false)).isDragging = true ∧
    cardMouseMove (PointerEvent.mk 7 9 false)
        (cardMouseDown (PointerEvent.mk 5 5 true)
          (PaperCardData.mk "c" "t" 0 0 0 0 false))
        (Coordinates.mk 0 0)
      ≠ Coordinates.mk 0 0 := by
  refine ⟨rfl, rfl, ?_⟩
  simp [cardMouseMove, cardMouseDown, Coordinates.mk.injEq]
  norm_num

/-- C3 amended: the interactive-control guard holds for the console
(machine) root — a pointer-down on a nested button/textarea/input is a
no-op and subsequent moves leave the machine position unchanged — but a
pointer-down on a card root always begins a drag session, whatever its
target. -/
theorem interactive_guard_console_only (e emove : PointerEvent)
    (pos : Coordinates) (s0 : MachineDrag)
    (hTarget : e.targetInteractive = true)
    (hIdle : s0.isDraggingMachine = false) :
    handleMachineMouseDown e pos s0 = s0 ∧
    machineMouseMove emove (handleMachineMouseDown e pos s0) pos = pos ∧
    ∀ (e2 : PointerEvent) (card : PaperCardData),
      (cardMouseDown e2 card).isDragging = true := by
  have hDown : handleMachineMouseDown e pos s0 = s0 := by
    simp [handleMachineMouseDown, hTarget]
  refine ⟨hDown, ?_, fun e2 card => rfl⟩
  rw [hDown]
  simp [machineMouseMove, hIdle]

/-- Witness for the amended C3 at a concrete interactive pointer-down. -/
theorem interactive_guard_console_only_witness :
    (PointerEvent.mk 1 2 true).targetInteractive = true ∧
    (MachineDrag.mk false (Coordinates.mk 0 0)).isDraggingMachine = false ∧
    (handleMachineMouseDown (PointerEvent.mk 1 2 true) (Coordinates.mk 3 4)
        (MachineDrag.mk false (Coordinates.mk 0 0))
      = MachineDrag.mk false (Coordinates.mk 0 0) ∧
    machineMouseMove (PointerEvent.mk 9 9 false)
        (handleMachineMouseDown (PointerEvent.mk 1 2 true) (Coordinates.mk 3 4)
          (MachineDrag.mk false (Coordinates.mk 0 0)))
        (Coordinates.mk 3 4)
      = Coordinates.mk 3 4 ∧
    ∀ (e2 : PointerEvent) (card : PaperCardData),
      (cardMouseDown e2 card).isDragging = true) :=
  ⟨rfl, rfl,
    interactive_guard_console_only (PointerEvent.mk 1 2 true) (PointerEvent.mk 9 9 false)
      (Coordinates.mk 3 4) (MachineDrag.mk false (Coordinates.mk 0 0)) rfl rfl⟩

/-- C4: offset-preserving translation.  Picking up a card (or the
machine, when the target is not an interactive control) at pointer
position P with the entity at C, then moving the pointer to P', puts
the entity at `C + (P' - P)`. -/
theorem drag_translation (card : PaperCardData) (machinePos anyPos : Coordinates)
    (e emove : PointerEvent) (s0 : MachineDrag)
    (hTarget : e.targetInteractive = false) :
    cardMouseMove emove (cardMouseDown e card) anyPos
      = { x := card.x + (emove.clientX - e.clientX)
          y := card.y + (emove.clientY - e.clientY) } ∧
    machineMouseMove emove (handleMachineMouseDown e machinePos s0) machinePos
      = { x := machinePos.x + (emove.clientX - e.clientX)
          y := machinePos.y + (emove.clientY - e.clientY) } := by
  constructor
  · simp [cardMouseMove, cardMouseDown, Coordinates.mk.injEq]
    constructor <;> ring
  · simp [machineMouseMove, handleMachineMouseDown, hTarget, Coordinates.mk.injEq]
    constructor <;> ring

/-- Witness for C4 at a concrete pick-up and move. -/
theorem drag_translation_witness :
    (PointerEvent.mk 5 6 false).targetInteractive = false ∧
    (cardMouseMove (PointerEvent.mk 8 10 false)
        (cardMouseDown (PointerEvent.mk 5 6 false)
          (PaperCardData.mk "c" "t" 1 2 0 0 false))
        (Coordinates.mk 0 0)
      = { x := 1 + (8 - 5 : ℚ), y := 2 + (10 - 6 : ℚ) } ∧
    machineMouseMove (PointerEvent.mk 8 10 false)
        (handleMachineMouseDown (PointerEvent.mk 5 6 false) (Coordinates.mk 1 2)
          (MachineDrag.mk false (Coordinates.mk 0 0)))
        (Coordinates.mk 1 2)
      = { x := 1 + (8 - 5 : ℚ), y := 2 + (10 - 6 : ℚ) }) :=
  ⟨rfl,
    drag_translation (PaperCardData.mk "c" "t" 1 2 0 0 false) (Coordinates.mk 1 2)
      (Coordinates.mk 0 0) (PointerEvent.mk 5 6 false) (PointerEvent.mk 8 10 false)
      (MachineDrag.mk false (Coordinates.mk 0 0)) rfl⟩

/-- C5: every possible sampled per-character delay for a length-300 text
is strictly less than every possible sampled delay for a length-10 text
(samples drawn from `Math.random() ∈ [0,1)`), hence so is the average. -/
theorem cadence_monotone (r1 r2 : ℚ)
    (h1 : 0 ≤ r1) (h1' : r1 < 1) (h2 : 0 ≤ r2) (h2' : r2 < 1) :
    typingDelay 300 r1 < typingDelay 10 r2 := by
  have e1 : typingDelay 300 r1 = r1 * 15 + 5 := by
    simp [typingDelay, delayBounds]
  have e2 : typingDelay 10 r2 = r2 * 50 + 30 := by
    simp [typingDelay, delayBounds]
  rw [e1, e2]
  nlinarith

/-- Witness for C5 at the concrete samples r1 = r2 = 1/2. -/
theorem cadence_monotone_witness :
    (0 : ℚ) ≤ 1 / 2 ∧ (1 / 2 : ℚ) < 1 ∧
    typingDelay 300 (1 / 2) < typingDelay 10 (1 / 2) :=
  ⟨by norm_num, by norm_num,
    cadence_monotone (1 / 2) (1 / 2) (by norm_num) (by norm_num) (by norm_num) (by norm_num)⟩

/-- C6: a card is created with `isTyping = true` (App `handlePrint`);
over the reveal run the flag is true exactly up to step `length`, flips
to false at step `length + 1` (so exactly once, never back), and no
further reveal steps change the state after completion. -/
theorem animating_flag_once (dw iw : ℚ) (pos : Coordinates) (freshId : String)
    (now : ℤ) (r : ℚ) (text : String) (cards : List PaperCardData)
    (t : List Char) :
    (∃ c : PaperCardData,
      handlePrint dw iw pos freshId now r text cards = cards ++ [c] ∧
      c.isTyping = true) ∧
    (∀ k, (typeRun t k).isTyping = true ↔ k ≤ t.length) ∧
    (∀ j, typeRun t (t.length + 1 + j) = typeRun t (t.length + 1)) := by
  refine ⟨⟨_, rfl, rfl⟩, ?_, typeRun_stable t⟩
  intro k
  constructor
  · intro hTrue
    by_contra hk
    push_neg at hk
    obtain ⟨j, rfl⟩ : ∃ j, k = t.length + 1 + j := ⟨k - (t.length + 1), by omega⟩
    rw [typeRun_stable, typeRun_succ_length] at hTrue
    simp at hTrue
  · intro hk
    rw [typeRun_of_le t k hk]

/-- Witness for C6 on the concrete text "hi": the flag is true at step
2 and false at step 3, and step 4 changes nothing. -/
theorem animating_flag_once_witness :
    (∃ c : PaperCardData,
      handlePrint 280 1024 (Coordinates.mk 0 0) "a" 0 0 "hi" [] = [] ++ [c] ∧
      c.isTyping = true) ∧
    ((typeRun ['h', 'i'] 2).isTyping = true ↔ 2 ≤ (['h', 'i'] : List Char).length) ∧
    typeRun ['h', 'i'] ((['h', 'i'] : List Char).length + 1 + 1)
      = typeRun ['h', 'i'] ((['h', 'i'] : List Char).length + 1) :=
  ⟨(animating_flag_once 280 1024 (Coordinates.mk 0 0) "a" 0 0 "hi" [] ['h', 'i']).1,
    (animating_flag_once 280 1024 (Coordinates.mk 0 0) "a" 0 0 "hi" [] ['h', 'i']).2.1 2,
    (animating_flag_once 280 1024 (Coordinates.mk 0 0) "a" 0 0 "hi" [] ['h', 'i']).2.2 1⟩

/-- C7: a click on the rewrite (Magic) button is a no-op — state
unchanged and collaborator not invoked — whenever the buffer is empty
or whitespace-only (the handler's trim guard) or a rewrite is already
in flight, i.e. the mode is not IDLE (the button's `disabled`
condition, so the click never reaches the handler). -/
theorem rewrite_rejected_noop (collab : String → String) (s : ConsoleState)
    (h : strTrim s.input = "" ∨ s.state ≠ TypewriterState.IDLE) :
    clickPolish collab s = (s, false) := by
  rcases h with h | h <;> simp [clickPolish, polishDisabled, handlePolish, h]

/-- Witness for C7: a click while THINKING with a non-blank buffer is a
no-op. -/
theorem rewrite_rejected_noop_witness :
    (strTrim "hi" = "" ∨
      (ConsoleState.mk "hi" TypewriterState.THINKING).state ≠ TypewriterState.IDLE) ∧
    clickPolish id (ConsoleState.mk "hi" TypewriterState.THINKING)
      = (ConsoleState.mk "hi" TypewriterState.THINKING, false) :=
  ⟨Or.inr (by decide),
    rewrite_rejected_noop id (ConsoleState.mk "hi" TypewriterState.THINKING)
      (Or.inr (by decide))⟩

/-- C8: `polishTextToVintage` always returns — either the original
input (on missing credential, thrown transport error, absent or empty
response text) or the nonempty rewritten text; every failure path is
caught, so nothing escapes to the caller. -/
theorem polish_fallback_total (apiKey : Option String) (outcome : GenAiOutcome)
    (input : String) :
    polishTextToVintage apiKey outcome input = input ∨
      ∃ t, t ≠ "" ∧ outcome = GenAiOutcome.responded (some t) ∧
        polishTextToVintage apiKey outcome input = t := by
  cases apiKey with
  | none => exact Or.inl rfl
  | some key =>
    cases outcome with
    | threw => exact Or.inl rfl
    | responded o =>
      cases o with
      | none => exact Or.inl rfl
      | some t =>
        by_cases ht : t = ""
        · exact Or.inl (by simp [polishTextToVintage, ht])
        · exact Or.inr ⟨t, ht, rfl, by simp [polishTextToVintage, ht]⟩

/-- C9: `handleClearAll` leaves the collection unchanged when the
confirmation is declined and empties it when accepted. -/
theorem clearAll_confirmation (cards : List PaperCardData) :
    handleClearAll false cards = cards ∧ handleClearAll true cards = [] :=
  ⟨rfl, rfl⟩

/-- C10: `handleFocus` with an id no card carries leaves the card
collection exactly unchanged but still increments the stacking counter
by one. -/
theorem focus_absent_id (st : AppState) (id : String)
    (h : ∀ c ∈ st.cards, c.id ≠ id) :
    handleFocus id st = { cards := st.cards, topZIndex := st.topZIndex + 1 } := by
  have hmap : (st.cards.map fun c => if c.id = id then c else c) = st.cards := by
    simp
  have hfind : st.cards.find? (fun c => c.id = id) = none := by
    rw [List.find?_eq_none]
    intro c hc
    simp [h c hc]
  simp only [handleFocus, hmap, hfind]

/-- Witness for C10 on a one-card collection and an absent id. -/
theorem focus_absent_id_witness :
    (∀ c ∈ (AppState.mk [PaperCardData.mk "a" "t" 0 0 0 0 false] 10).cards,
      c.id ≠ "x") ∧
    handleFocus "x" (AppState.mk [PaperCardData.mk "a" "t" 0 0 0 0 false] 10)
      = AppState.mk [PaperCardData.mk "a" "t" 0 0 0 0 false] 11 :=
  ⟨by decide,
    focus_absent_id (AppState.mk [PaperCardData.mk "a" "t" 0 0 0 0 false] 10) "x"
      (by decide)⟩
